import Mathlib

/-!
Verification of the prayer-time calculator in `src/calculator.go` of
RadhiFadlillah/go-salat (package `prayer`).

The file shallowly embeds the calculator: the `Calculator` record, `Init`,
`Calculate` and `CalculateAll` are translated from `src/calculator.go`.
The arbitrary-precision decimal type is modelled as `ℚ`; `time.Duration`
as nanoseconds (`ℤ`); `time.Time` instants as rational seconds, whose
Go zero value `time.Time\x7b\x7d` is modelled as `0`.

The solar-position and hour-angle methods (`getTransitTime`,
`getSunDeclination`, `getSunAltitude`, `getHourAngle`, `hoursToTime`) and
the package `julianday` are code of this repository that is not under
`src/`; following the spec, which treats them as supplied pure functions
(spec sections 2, 4.1, 4.2, 6), they are modelled as a record `Astro` of
pure functions, and all structural theorems hold for every such record.
-/

namespace Prayer

/-- Modelled from the spec: the `Target` type is declared outside
`src/calculator.go`; per the spec it is "an ordered enumeration of the six
observances" with midday (`Zuhr`) in the middle, and `src/calculator.go`
iterates it from `Fajr` through `Isha` and compares targets against `Zuhr`
with the integer order. -/
inductive Target : Type where
  | Fajr
  | Sunrise
  | Zuhr
  | Asr
  | Maghrib
  | Isha
deriving DecidableEq, Repr

open Target

/-- Position of a target in the Go integer enumeration. -/
def Target.idx : Target → ℕ
  | Fajr => 0
  | Sunrise => 1
  | Zuhr => 2
  | Asr => 3
  | Maghrib => 4
  | Isha => 5

instance : LT Target := ⟨fun a b => a.idx < b.idx⟩

instance (a b : Target) : Decidable (a < b) :=
  inferInstanceAs (Decidable (a.idx < b.idx))

/-- The iteration order of `CalculateAll`
(`for target := Fajr; target <= Isha; target++`, src line 203). -/
def targetList : List Target := [Fajr, Sunrise, Zuhr, Asr, Maghrib, Isha]

/-- Modelled from the spec: `CalculationMethod` is an integer enumeration
declared outside `src/calculator.go`; only the distinctness of its
constants matters to the switch in `Init`. -/
def Default : ℕ := 0

def MWL : ℕ := 1

def Algerian : ℕ := 2

def Diyanet : ℕ := 3

def ISNA : ℕ := 4

def UmmAlQura : ℕ := 5

def Gulf : ℕ := 6

def Karachi : ℕ := 7

def France18 : ℕ := 8

def Tunisia : ℕ := 9

def Egypt : ℕ := 10

def EgyptBis : ℕ := 11

def Kemenag : ℕ := 12

def MUIS : ℕ := 13

def JAKIM : ℕ := 14

def UOIF : ℕ := 15

def France15 : ℕ := 16

def Tehran : ℕ := 17

def Jafari : ℕ := 18

/-- Modelled from the spec: `AsrConvention` is an integer enumeration
declared outside `src/calculator.go`; `Init` only distinguishes `Hanafi`
from everything else. -/
def Shafii : ℕ := 0

def Hanafi : ℕ := 1

/-- `time.Duration`: Go int64 nanoseconds. -/
abbrev Duration := ℤ

/-- `time.Minute` in nanoseconds. -/
def timeMinute : Duration := 60000000000

/-- `Duration.Hours()`: nanoseconds to fractional hours. -/
def durationHours (d : Duration) : ℚ := (d : ℚ) / 3600000000000

/-- `time.Time.Add`: clock instants are modelled as rational seconds, so
adding a duration adds its nanoseconds divided by `10^9`. -/
def timeAdd (t : ℚ) (d : Duration) : ℚ := t + (d : ℚ) / 1000000000

/-- The `Calculator` struct (src lines 18-42).  Public configuration
fields first, then the private resolved fields, then the per-date state.
The correction maps are modelled as functions into `Option`. -/
structure Calculator where
  Latitude : ℚ
  Longitude : ℚ
  Elevation : ℚ
  FajrAngle : ℚ
  IshaAngle : ℚ
  MaghribDuration : Duration
  CalculationMethod : ℕ
  AsrConvention : ℕ
  PreciseToSeconds : Bool
  IgnoreElevation : Bool
  TimeCorrection : Target → Option Duration
  AngleCorrection : Target → Option ℚ
  latitude : ℚ
  longitude : ℚ
  fajrAngle : ℚ
  ishaAngle : ℚ
  asrCoefficient : ℚ
  date : ℚ
  timezone : ℚ
  transitTime : ℚ
  sunDeclination : ℚ

/-- The switch on `CalculationMethod` in `Init` (src lines 54-77),
returning the triple (fajrAngle, ishaAngle, maghribDuration); the Go
variables start at their zero values and the switch has no default
branch, so an unmatched method leaves `(0, 0, 0)`. -/
def methodSwitch (m : ℕ) : ℚ × ℚ × Duration :=
  if m = Default ∨ m = MWL ∨ m = Algerian ∨ m = Diyanet then (18, 17, 0)
  else if m = ISNA then (15, 15, 0)
  else if m = UmmAlQura then (18.5, 0, 90 * timeMinute)
  else if m = Gulf then (19.5, 0, 90 * timeMinute)
  else if m = Karachi ∨ m = France18 ∨ m = Tunisia then (18, 18, 0)
  else if m = Egypt then (19.5, 17.5, 0)
  else if m = EgyptBis ∨ m = Kemenag ∨ m = MUIS ∨ m = JAKIM then (20, 18, 0)
  else if m = UOIF then (12, 12, 0)
  else if m = France15 then (15, 15, 0)
  else if m = Tehran then (17.7, 14, 0)
  else if m = Jafari then (16, 14, 0)
  else (0, 0, 0)

/-- `Init` (src lines 45-104): saves the location, resolves the method
profile with field-by-field overrides (`if calc.FajrAngle != 0 ...`),
writes the resolved duration back into the public `MaghribDuration`
field, and sets the asr coefficient. -/
def Calculator.Init (c : Calculator) : Calculator :=
  let fm := methodSwitch c.CalculationMethod
  let fajrAngle := if c.FajrAngle ≠ 0 then c.FajrAngle else fm.1
  let ishaAngle := if c.IshaAngle ≠ 0 then c.IshaAngle else fm.2.1
  let maghribDuration := if c.MaghribDuration ≠ 0 then c.MaghribDuration else fm.2.2
  let asrCoefficient : ℚ := if c.AsrConvention = Hanafi then 2 else 1
  { c with
      latitude := c.Latitude
      longitude := c.Longitude
      fajrAngle := fajrAngle
      ishaAngle := ishaAngle
      MaghribDuration := maghribDuration
      asrCoefficient := asrCoefficient }

/-- Modelled from the spec: the solar-position and hour-angle methods and
the `julianday` package are code of this repository outside
`src/calculator.go`.  The spec treats them as pure functions of their
arguments (sections 2, 4.1, 4.2, 6): day-number conversion, transit time
and declination from a day number, per-target required sun altitude, the
hour-angle solver which "signals not applicable" by an `Option`, and the
fractional-hours-to-clock-time conversion. -/
structure Astro where
  julianDay : ℚ → ℚ
  getTransitTime : ℚ → ℚ
  getSunDeclination : ℚ → ℚ
  getSunAltitude : Target → ℚ → ℚ
  getHourAngle : ℚ → ℚ → Option ℚ
  hoursToTime : ℚ → ℚ

/-- Go `math.Round` (src line 182): round half away from zero. -/
def goRound (q : ℚ) : ℤ :=
  if q < 0 then -Int.floor (-q + 1 / 2) else Int.floor (q + 1 / 2)

/-- The loop-carried variables of `Calculate` (src lines 142-150). -/
structure IterState where
  targetTime : ℚ
  jd : ℚ
  transitTime : ℚ
  sunDeclination : ℚ
  sunAltitude : ℚ

/-- The sign-adjusted raw hours (the switch at src lines 157-165):
post-midday targets add the hour angle over 15, pre-midday targets
subtract it, midday keeps the transit time. -/
def rawHours (target : Target) (transit hourAngle : ℚ) : ℚ :=
  if Zuhr < target then transit + hourAngle / 15
  else if target < Zuhr then transit - hourAngle / 15
  else transit

/-- The per-target corrections applied to the raw hours
(src lines 167-176): the angle correction divided by 15, then the time
correction in hours. -/
def corrHours (c : Calculator) (target : Target) (hours0 : ℚ) : ℚ :=
  let hours1 :=
    match c.AngleCorrection target with
    | some corr => hours0 + corr / 15
    | none => hours0
  match c.TimeCorrection target with
  | some corr => hours1 + durationHours corr
  | none => hours1

/-- The angle-correction term in hours (0 when no correction is set). -/
def angleCorrHours (c : Calculator) (target : Target) : ℚ :=
  match c.AngleCorrection target with
  | some corr => corr / 15
  | none => 0

/-- The time-correction term in hours (0 when no correction is set). -/
def timeCorrHours (c : Calculator) (target : Target) : ℚ :=
  match c.TimeCorrection target with
  | some corr => durationHours corr
  | none => 0

/-- Outcome of one iteration of the refinement loop: the hour angle is
not applicable, or the loop breaks with a converged time, or it proceeds
to the next iteration with updated variables. -/
inductive StepResult : Type where
  | na : StepResult
  | done : ℚ → StepResult
  | next : IterState → StepResult

/-- One iteration of the refinement loop (the body of the `for` at src
lines 149-194). -/
def step (c : Calculator) (A : Astro) (target : Target) (st : IterState) : StepResult :=
  match A.getHourAngle st.sunAltitude st.sunDeclination with
  | none => StepResult.na
  | some hourAngle =>
    let hours := corrHours c target (rawHours target st.transitTime hourAngle)
    let newTime := A.hoursToTime hours
    if goRound (st.targetTime - newTime) = 0 then StepResult.done newTime
    else
      let jd := A.julianDay newTime
      StepResult.next
        { targetTime := newTime
          jd := jd
          transitTime := A.getTransitTime jd
          sunDeclination := A.getSunDeclination jd
          sunAltitude := if target = Asr then A.getSunAltitude target jd else st.sunAltitude }

/-- The candidate clock time one iteration computes, `none` when the hour
angle solver signals not applicable. -/
def candidate (c : Calculator) (A : Astro) (target : Target) (st : IterState) : Option ℚ :=
  (A.getHourAngle st.sunAltitude st.sunDeclination).map
    (fun hourAngle => A.hoursToTime (corrHours c target (rawHours target st.transitTime hourAngle)))

/-- The bounded refinement loop (src lines 149-194): `n` iterations of
fuel remain; exhausting the fuel returns the carried candidate as a
normal result (the `return targetTime, false` after the loop). -/
def runLoop (c : Calculator) (A : Astro) (target : Target) : IterState → ℕ → ℚ × Bool
  | st, 0 => (st.targetTime, false)
  | st, n + 1 =>
    match step c A target st with
    | StepResult.na => (0, true)
    | StepResult.done t => (t, false)
    | StepResult.next st2 => runLoop c A target st2 n

/-- Number of loop iterations `runLoop` actually executes. -/
def loopSteps (c : Calculator) (A : Astro) (target : Target) : IterState → ℕ → ℕ
  | _, 0 => 0
  | st, n + 1 =>
    match step c A target st with
    | StepResult.next st2 => loopSteps c A target st2 n + 1
    | _ => 1

/-- The variables prepared before the loop (src lines 142-146): the zero
target time, the day number of the stored date, the cached transit time
and declination, and the target altitude at the initial day number. -/
def initState (c : Calculator) (A : Astro) (target : Target) : IterState :=
  let jd := A.julianDay c.date
  { targetTime := 0
    jd := jd
    transitTime := c.transitTime
    sunDeclination := c.sunDeclination
    sunAltitude := A.getSunAltitude target jd }

/-- The altitude-solving path of `Calculate` (src lines 141-196): the
loop run for at most five iterations from the initial state. -/
def calculateBase (c : Calculator) (A : Astro) (target : Target) : ℚ × Bool :=
  runLoop c A target (initState c A target) 5

/-- `Calculate` (src lines 130-197).  The boolean result is `isNA`:
`true` means the target is not available.  The recursive call
`calc.Calculate(Maghrib)` on the Isha shortcut path is unfolded to
`calculateBase` because `Maghrib` fails the `target == Isha` guard. -/
def Calculator.Calculate (c : Calculator) (A : Astro) (target : Target) : ℚ × Bool :=
  if target = Isha ∧ c.MaghribDuration ≠ 0 then
    let r := calculateBase c A Maghrib
    if r.2 then (0, true) else (timeAdd r.1 c.MaghribDuration, false)
  else
    calculateBase c A target

/-- `CalculateAll` (src lines 201-210): iterate the targets in order and
keep those whose calculation is available; the Go map with one insert per
distinct key is modelled as the association list in iteration order. -/
def Calculator.CalculateAll (c : Calculator) (A : Astro) : List (Target × ℚ) :=
  targetList.filterMap (fun target =>
    let r := c.Calculate A target
    if r.2 then none else some (target, r.1))

/-- The refinement loop with the receiver threaded through explicitly.
Go passes the receiver of `Calculate` by value (src line 130) and the
loop body assigns only to local variables, so the receiver is carried
unchanged; this definition makes that observable. -/
def runLoopSt (A : Astro) (target : Target) :
    Calculator → IterState → ℕ → (ℚ × Bool) × Calculator
  | c, st, 0 => ((st.targetTime, false), c)
  | c, st, n + 1 =>
    match step c A target st with
    | StepResult.na => ((0, true), c)
    | StepResult.done t => ((t, false), c)
    | StepResult.next st2 => runLoopSt A target c st2 n

/-- `Calculate` with the receiver state threaded through: the result of
the call together with the receiver as it stands when the call returns. -/
def Calculator.CalculateSt (c : Calculator) (A : Astro) (target : Target) :
    (ℚ × Bool) × Calculator :=
  if target = Isha ∧ c.MaghribDuration ≠ 0 then
    let inner := runLoopSt A Maghrib c (initState c A Maghrib) 5
    let r := inner.1
    if r.2 then ((0, true), inner.2)
    else ((timeAdd r.1 c.MaghribDuration, false), inner.2)
  else
    runLoopSt A target c (initState c A target) 5

/-- The loop of `CalculateAll` with the receiver threaded through each
`Calculate` call in sequence. -/
def calcAllStGo (A : Astro) : Calculator → List Target → List (Target × ℚ) × Calculator
  | c, [] => ([], c)
  | c, t :: ts =>
    let r := c.CalculateSt A t
    let rest := calcAllStGo A r.2 ts
    (match r.1 with
     | (v, false) => (t, v) :: rest.1
     | (_, true) => rest.1,
     rest.2)

/-- `CalculateAll` with the receiver state threaded through. -/
def Calculator.CalculateAllSt (c : Calculator) (A : Astro) :
    List (Target × ℚ) × Calculator :=
  calcAllStGo A c targetList

/-- Modelled from the spec: the trigonometric primitives are supplied by
an external decimal-arithmetic collaborator (spec sections 1 and 6); a
`Trig` record is one such supplier. -/
structure Trig where
  sin : ℚ → ℚ
  cos : ℚ → ℚ
  acos : ℚ → ℚ

/-- Modelled from the spec: `getHourAngle` is declared outside
`src/calculator.go`; per spec section 4.2 it solves
`cos H = (sin alt - sin lat * sin dec) / (cos lat * cos dec)` and signals
"not applicable" when the right-hand side falls outside `[-1, 1]`. -/
def getHourAngleSpec (T : Trig) (latitude : ℚ) (sunAltitude sunDeclination : ℚ) :
    Option ℚ :=
  let cosHourAngle :=
    (T.sin sunAltitude - T.sin latitude * T.sin sunDeclination) /
      (T.cos latitude * T.cos sunDeclination)
  if cosHourAngle < -1 ∨ 1 < cosHourAngle then none
  else some (T.acos cosHourAngle)

/-- A calculator whose configuration is all zero values (corrections
absent), with asr coefficient resolved to 1. -/
def cZero : Calculator where
  Latitude := 0
  Longitude := 0
  Elevation := 0
  FajrAngle := 0
  IshaAngle := 0
  MaghribDuration := 0
  CalculationMethod := 0
  AsrConvention := 0
  PreciseToSeconds := false
  IgnoreElevation := false
  TimeCorrection := fun _ => none
  AngleCorrection := fun _ => none
  latitude := 0
  longitude := 0
  fajrAngle := 0
  ishaAngle := 0
  asrCoefficient := 1
  date := 0
  timezone := 0
  transitTime := 0
  sunDeclination := 0

/-- A concrete astronomical environment in which every hour-angle solve
succeeds with angle 0 and the transit time is midnight; the refinement
loop converges in one iteration on it. -/
def idAstro : Astro where
  julianDay := fun _ => 0
  getTransitTime := fun _ => 0
  getSunDeclination := fun _ => 0
  getSunAltitude := fun _ _ => 0
  getHourAngle := fun _ _ => some 0
  hoursToTime := fun h => h * 3600

/-- A concrete astronomical environment in which the hour-angle solver
always signals "not applicable". -/
def naAstro : Astro :=
  { idAstro with getHourAngle := fun _ _ => none }

/-- A calculator with the Umm al-Qura style fixed Maghrib duration of 90
minutes resolved. -/
def cMaghrib : Calculator :=
  { cZero with MaghribDuration := 90 * timeMinute }

/-- Rational approximations of the sines and cosines that arise at
latitude 89 and declination 20 (sin 89 ≈ 0.9998, cos 89 ≈ 0.0175,
sin 20 ≈ 0.342, cos 20 ≈ 0.9397); values at other arguments are
irrelevant to the evaluation below. -/
def polarTrig : Trig where
  sin := fun q => if q = 89 then 4999 / 5000 else if q = 20 then 171 / 500 else 0
  cos := fun q => if q = 89 then 7 / 400 else if q = 20 then 4699 / 5000 else 1
  acos := fun _ => 0

/-- A polar-summer environment: latitude 89, sun declination 20, the
spec-section-4.2 hour-angle solver over `polarTrig`.  The midday altitude
is 0 (Go's zero value: the altitude switch outside `src/` has no midday
case, and the spec says midday needs no altitude computation). -/
def polarAstro : Astro where
  julianDay := fun _ => 0
  getTransitTime := fun _ => 12
  getSunDeclination := fun _ => 20
  getSunAltitude := fun _ _ => 0
  getHourAngle := getHourAngleSpec polarTrig 89
  hoursToTime := fun h => h * 3600

/-- A calculator dated to a polar midsummer day: latitude 89 with cached
transit time 12 and declination 20. -/
def polarCalc : Calculator :=
  { cZero with
      Latitude := 89
      latitude := 89
      transitTime := 12
      sunDeclination := 20 }

/-- The calculation methods that appear as cases of the switch in `Init`
(src lines 54-77). -/
def enumeratedMethods : List ℕ :=
  [Default, MWL, Algerian, Diyanet, ISNA, UmmAlQura, Gulf, Karachi, France18,
   Tunisia, Egypt, EgyptBis, Kemenag, MUIS, JAKIM, UOIF, France15, Tehran, Jafari]

/-- A calculator configured with a method value that matches none of the
enumerated calculation methods. -/
def cUnknown : Calculator :=
  { cZero with CalculationMethod := 99 }

/-! ### Helper lemmas -/

theorem Target.lt_def (a b : Target) : a < b ↔ a.idx < b.idx := Iff.rfl

theorem mem_targetList (t : Target) : t ∈ targetList := by
  cases t <;> simp [targetList]

theorem targetList_nodup : targetList.Nodup := by decide

theorem corrHours_eq (c : Calculator) (target : Target) (h : ℚ) :
    corrHours c target h = h + angleCorrHours c target + timeCorrHours c target := by
  unfold corrHours angleCorrHours timeCorrHours
  cases c.AngleCorrection target <;> cases c.TimeCorrection target <;> simp

theorem goRound_eq_zero_iff (q : ℚ) : goRound q = 0 ↔ |q| < 1 / 2 := by
  unfold goRound
  rcases lt_or_ge q 0 with h | h
  · rw [if_pos h, neg_eq_zero, Int.floor_eq_zero_iff, Set.mem_Ico, abs_of_neg h]
    constructor
    · intro hq
      linarith [hq.2]
    · intro hq
      constructor <;> linarith
  · rw [if_neg (not_lt.mpr h), Int.floor_eq_zero_iff, Set.mem_Ico, abs_of_nonneg h]
    constructor
    · intro hq
      linarith [hq.2]
    · intro hq
      constructor <;> linarith

theorem runLoop_true_fst_eq_zero (c : Calculator) (A : Astro) (target : Target) :
    ∀ (n : ℕ) (st : IterState),
      (runLoop c A target st n).2 = true → (runLoop c A target st n).1 = 0 := by
  intro n
  induction n with
  | zero =>
    intro st h
    simp [runLoop] at h
  | succ n ih =>
    intro st h
    rw [runLoop] at h ⊢
    cases hs : step c A target st with
    | na => rfl
    | done t =>
      rw [hs] at h
      simp at h
    | next st2 =>
      rw [hs] at h
      exact ih st2 h

theorem loopSteps_le (c : Calculator) (A : Astro) (target : Target) :
    ∀ (n : ℕ) (st : IterState), loopSteps c A target st n ≤ n := by
  intro n
  induction n with
  | zero =>
    intro st
    simp [loopSteps]
  | succ n ih =>
    intro st
    rw [loopSteps]
    cases hs : step c A target st with
    | na => simp
    | done t => simp
    | next st2 =>
      simp only []
      exact Nat.succ_le_succ (ih st2)

theorem step_done_iff (c : Calculator) (A : Astro) (target : Target) (st : IterState)
    (t : ℚ) :
    step c A target st = StepResult.done t ↔
      candidate c A target st = some t ∧ goRound (st.targetTime - t) = 0 := by
  unfold step candidate
  cases hha : A.getHourAngle st.sunAltitude st.sunDeclination with
  | none => simp
  | some hourAngle =>
    simp only [Option.map_some']
    by_cases hg :
        goRound (st.targetTime -
          A.hoursToTime (corrHours c target (rawHours target st.transitTime hourAngle))) = 0
    · rw [if_pos hg]
      constructor
      · intro hd
        cases hd
        exact ⟨rfl, hg⟩
      · rintro ⟨hv, -⟩
        cases hv
        rfl
    · rw [if_neg hg]
      constructor
      · intro hd
        cases hd
      · rintro ⟨hv, hz⟩
        cases hv
        exact absurd hz hg

theorem step_congr (c c2 : Calculator) (A : Astro) (target : Target) (st : IterState)
    (h : ∀ x : ℚ, corrHours c2 target x = corrHours c target x) :
    step c2 A target st = step c A target st := by
  unfold step
  cases A.getHourAngle st.sunAltitude st.sunDeclination with
  | none => rfl
  | some hourAngle => simp only [h]

theorem runLoop_congr (c c2 : Calculator) (A : Astro) (target : Target)
    (h : ∀ x : ℚ, corrHours c2 target x = corrHours c target x) :
    ∀ (n : ℕ) (st : IterState), runLoop c2 A target st n = runLoop c A target st n := by
  intro n
  induction n with
  | zero =>
    intro st
    rfl
  | succ n ih =>
    intro st
    rw [runLoop, runLoop, step_congr c c2 A target st h]
    cases step c A target st with
    | na => rfl
    | done t => rfl
    | next st2 => exact ih st2

theorem runLoopSt_eq (A : Astro) (target : Target) :
    ∀ (n : ℕ) (c : Calculator) (st : IterState),
      runLoopSt A target c st n = (runLoop c A target st n, c) := by
  intro n
  induction n with
  | zero =>
    intro c st
    rfl
  | succ n ih =>
    intro c st
    rw [runLoopSt, runLoop]
    cases step c A target st with
    | na => rfl
    | done t => rfl
    | next st2 => exact ih c st2

theorem calculateSt_eq (c : Calculator) (A : Astro) (target : Target) :
    c.CalculateSt A target = (c.Calculate A target, c) := by
  unfold Calculator.CalculateSt Calculator.Calculate
  by_cases hg : target = Isha ∧ c.MaghribDuration ≠ 0
  · rw [if_pos hg, if_pos hg]
    rw [runLoopSt_eq]
    by_cases h2 : (runLoop c A Maghrib (initState c A Maghrib) 5).2 <;>
      simp [calculateBase, h2]
  · rw [if_neg hg, if_neg hg]
    rw [runLoopSt_eq]
    rfl

theorem calcAllStGo_eq (A : Astro) :
    ∀ (ts : List Target) (c : Calculator),
      calcAllStGo A c ts =
        (ts.filterMap (fun target =>
          let r := c.Calculate A target
          if r.2 then none else some (target, r.1)), c) := by
  intro ts
  induction ts with
  | nil =>
    intro c
    rfl
  | cons t ts ih =>
    intro c
    rw [calcAllStGo, calculateSt_eq, List.filterMap_cons]
    cases hr : c.Calculate A t with
    | mk v b =>
      cases b
      · simp [ih c]
      · simp [ih c]

theorem calculate_maghrib_eq_base (c : Calculator) (A : Astro) :
    c.Calculate A Maghrib = calculateBase c A Maghrib := by
  unfold Calculator.Calculate
  simp

theorem isha_shortcut (c : Calculator) (A : Astro) (h : c.MaghribDuration ≠ 0) :
    c.Calculate A Isha =
      (if (calculateBase c A Maghrib).2 then (0, true)
       else (timeAdd (calculateBase c A Maghrib).1 c.MaghribDuration, false)) := by
  unfold Calculator.Calculate
  rw [if_pos ⟨rfl, h⟩]

theorem goRound_zero : goRound 0 = 0 := by
  norm_num [goRound]

theorem eval_cMaghrib_maghrib : cMaghrib.Calculate idAstro Maghrib = (0, false) := by
  norm_num [Calculator.Calculate, calculateBase, runLoop, initState, step, cMaghrib, cZero,
    idAstro, rawHours, corrHours, goRound, timeMinute, (by decide : ¬Maghrib = Isha)]

theorem eval_cZero_naAstro_fajr : cZero.Calculate naAstro Fajr = (0, true) := by
  norm_num [Calculator.Calculate, calculateBase, runLoop, initState, step, cZero, naAstro,
    idAstro]

theorem nodup_keys_filterMap {α β : Type} (f : α → Option (α × β))
    (hf : ∀ a p, f a = some p → p.1 = a) :
    ∀ l : List α, l.Nodup → ((l.filterMap f).map Prod.fst).Nodup := by
  intro l
  induction l with
  | nil =>
    intro _
    simp
  | cons a l ih =>
    intro hnd
    rcases List.nodup_cons.mp hnd with ⟨ha, hl⟩
    rw [List.filterMap_cons]
    cases hfa : f a with
    | none => exact ih hl
    | some p =>
      rw [List.map_cons]
      refine List.nodup_cons.mpr ⟨?_, ih hl⟩
      intro hmem
      rcases List.mem_map.mp hmem with ⟨q, hq, hq1⟩
      rcases List.mem_filterMap.mp hq with ⟨b, hb, hfb⟩
      have hqb := hf b q hfb
      have hpa := hf a p hfa
      rw [hpa] at hq1
      rw [hqb] at hq1
      exact ha (hq1 ▸ hb)

/-! ### Claim theorems -/

/-- C1: the claim says `Calculate` on the midday target performs no
hour-angle solve and always reports midday available.  The code (src
lines 149-155) calls `getHourAngle` for every target, midday included,
and returns "not available" when the solver signals not applicable.  At
latitude 89 with sun declination 20 (polar midsummer) the spec-section-4.2
solver gets `cos H ≈ -20.8`, outside `[-1, 1]`, so the midday target is
reported unavailable even though solar noon exists: this theorem
evaluates the code at that failing input. -/
theorem calculate_zuhr_unavailable_polar :
    polarCalc.Calculate polarAstro Zuhr = (0, true) := by
  norm_num [Calculator.Calculate, calculateBase, runLoop, initState, step, polarCalc, cZero,
    polarAstro, getHourAngleSpec, polarTrig]

/-- C2: with a non-zero fixed Maghrib duration, an available sunset time
`t` makes the Isha time exactly `t` plus the duration (available), and an
unavailable sunset makes Isha unavailable (src lines 131-139). -/
theorem calculate_isha_fixed_duration (c : Calculator) (A : Astro)
    (h : c.MaghribDuration ≠ 0) :
    ((c.Calculate A Maghrib).2 = false →
        c.Calculate A Isha =
          (timeAdd (c.Calculate A Maghrib).1 c.MaghribDuration, false)) ∧
    ((c.Calculate A Maghrib).2 = true → (c.Calculate A Isha).2 = true) := by
  rw [calculate_maghrib_eq_base, isha_shortcut c A h]
  constructor
  · intro hav
    rw [hav]
    simp
  · intro hna
    rw [hna]
    simp

theorem calculate_isha_fixed_duration_witness :
    cMaghrib.MaghribDuration ≠ 0 ∧ (cMaghrib.Calculate idAstro Maghrib).2 = false ∧
      cMaghrib.Calculate idAstro Isha =
        (timeAdd (cMaghrib.Calculate idAstro Maghrib).1 cMaghrib.MaghribDuration, false) :=
  ⟨by decide, by rw [eval_cMaghrib_maghrib],
    (calculate_isha_fixed_duration cMaghrib idAstro (by decide)).1
      (by rw [eval_cMaghrib_maghrib])⟩

/-- C3: `CalculateAll` contains a pair `(t, v)` exactly when `Calculate`
on `t` returns `v` available, each target appears at most once, and
unavailable targets are omitted (src lines 201-210). -/
theorem calculateAll_mem_iff_available (c : Calculator) (A : Astro) :
    (∀ (t : Target) (v : ℚ),
        (t, v) ∈ c.CalculateAll A ↔ c.Calculate A t = (v, false)) ∧
    ((c.CalculateAll A).map Prod.fst).Nodup := by
  constructor
  · intro t v
    unfold Calculator.CalculateAll
    rw [List.mem_filterMap]
    constructor
    · rintro ⟨a, -, hfa⟩
      by_cases h2 : (c.Calculate A a).2 = true
      · simp [h2] at hfa
      · rw [Bool.not_eq_true] at h2
        simp [h2] at hfa
        obtain ⟨rfl, hv⟩ := hfa
        exact Prod.ext_iff.mpr ⟨hv, h2⟩
    · intro he
      refine ⟨t, mem_targetList t, ?_⟩
      simp [he]
  · refine nodup_keys_filterMap _ ?_ targetList targetList_nodup
    intro a p hp
    by_cases h2 : (c.Calculate A a).2 = true
    · simp [h2] at hp
    · rw [Bool.not_eq_true] at h2
      simp [h2] at hp
      rw [← hp]

/-- C4: the refinement loop of `Calculate` runs on five units of fuel
(`calculateBase`), executes at most five iterations, breaks exactly when
the current candidate exists and its difference from the previous
candidate rounds to zero seconds (equivalently is under half a second in
absolute value), and on fuel exhaustion returns the carried candidate as
a normal, non-error result (src lines 148-196). -/
theorem calculate_loop_bounded (c : Calculator) (A : Astro) (target : Target)
    (st : IterState) :
    calculateBase c A target = runLoop c A target (initState c A target) 5 ∧
    loopSteps c A target (initState c A target) 5 ≤ 5 ∧
    (∀ t : ℚ, step c A target st = StepResult.done t ↔
        candidate c A target st = some t ∧ goRound (st.targetTime - t) = 0) ∧
    (∀ q : ℚ, goRound q = 0 ↔ |q| < 1 / 2) ∧
    runLoop c A target st 0 = (st.targetTime, false) :=
  ⟨rfl, loopSteps_le c A target 5 (initState c A target),
    step_done_iff c A target st, goRound_eq_zero_iff, rfl⟩

/-- C5: in each loop iteration the hours value is the transit time plus
the hour angle over 15 for targets after midday, minus it for targets
before midday, and the transit time unchanged for midday, with the angle
correction (divided by 15) and the time correction (in hours) added on
top (src lines 157-176). -/
theorem calculate_sign_rule (c : Calculator) (target : Target) (transit hourAngle : ℚ) :
    (Zuhr < target →
        corrHours c target (rawHours target transit hourAngle) =
          transit + hourAngle / 15 + angleCorrHours c target + timeCorrHours c target) ∧
    (target < Zuhr →
        corrHours c target (rawHours target transit hourAngle) =
          transit - hourAngle / 15 + angleCorrHours c target + timeCorrHours c target) ∧
    (target = Zuhr →
        corrHours c target (rawHours target transit hourAngle) =
          transit + angleCorrHours c target + timeCorrHours c target) := by
  refine ⟨?_, ?_, ?_⟩ <;> intro h
  · rw [corrHours_eq]
    unfold rawHours
    rw [if_pos h]
  · have hn : ¬Zuhr < target := by
      rw [Target.lt_def] at h ⊢
      omega
    rw [corrHours_eq]
    unfold rawHours
    rw [if_neg hn, if_pos h]
  · subst h
    rw [corrHours_eq]
    unfold rawHours
    simp [Target.lt_def]

theorem calculate_sign_rule_witness :
    Zuhr < Asr ∧
      corrHours cZero Asr (rawHours Asr 12 3) =
        12 + 3 / 15 + angleCorrHours cZero Asr + timeCorrHours cZero Asr :=
  ⟨by decide, (calculate_sign_rule cZero Asr 12 3).1 (by decide)⟩

/-- C6: whenever `Calculate` reports a target unavailable, the time it
returns alongside the flag is the zero value; unavailability is a value
of the ordinary `(time, flag)` result, never an error (src lines 133-136
and 152-155). -/
theorem calculate_unavailable_zero_time (c : Calculator) (A : Astro) (target : Target)
    (h : (c.Calculate A target).2 = true) : (c.Calculate A target).1 = 0 := by
  unfold Calculator.Calculate at h ⊢
  by_cases hg : target = Isha ∧ c.MaghribDuration ≠ 0
  · rw [if_pos hg] at h ⊢
    by_cases h2 : (calculateBase c A Maghrib).2 = true
    · simp [h2]
    · rw [Bool.not_eq_true] at h2
      simp [h2] at h
  · rw [if_neg hg] at h ⊢
    exact runLoop_true_fst_eq_zero c A target 5 (initState c A target) h

theorem calculate_unavailable_zero_time_witness :
    (cZero.Calculate naAstro Fajr).2 = true ∧ (cZero.Calculate naAstro Fajr).1 = 0 :=
  ⟨by rw [eval_cZero_naAstro_fajr],
    calculate_unavailable_zero_time cZero naAstro Fajr (by rw [eval_cZero_naAstro_fajr])⟩

/-- C7: `Init` resolves the dawn angle, the night angle and the
post-sunset duration field by field: each resolved value is the caller
override when non-zero and the method profile value when zero, and each
is unaffected by the other overrides (src lines 50-93). -/
theorem init_field_by_field (c : Calculator) :
    c.Init.fajrAngle =
      (if c.FajrAngle ≠ 0 then c.FajrAngle else (methodSwitch c.CalculationMethod).1) ∧
    c.Init.ishaAngle =
      (if c.IshaAngle ≠ 0 then c.IshaAngle else (methodSwitch c.CalculationMethod).2.1) ∧
    c.Init.MaghribDuration =
      (if c.MaghribDuration ≠ 0 then c.MaghribDuration
       else (methodSwitch c.CalculationMethod).2.2) ∧
    (∀ x : ℚ, (Calculator.Init { c with IshaAngle := x }).fajrAngle = c.Init.fajrAngle) ∧
    (∀ x : ℚ, (Calculator.Init { c with FajrAngle := x }).ishaAngle = c.Init.ishaAngle) ∧
    (∀ d : Duration,
        (Calculator.Init { c with MaghribDuration := d }).fajrAngle = c.Init.fajrAngle) ∧
    (∀ x : ℚ,
        (Calculator.Init { c with FajrAngle := x }).MaghribDuration =
          c.Init.MaghribDuration) :=
  ⟨rfl, rfl, rfl, fun _ => rfl, fun _ => rfl, fun _ => rfl, fun _ => rfl⟩

/-- C8: `Calculate` and `CalculateAll` leave the calculator unchanged:
threading the (value) receiver through every call returns it equal to the
input state, and the results agree with the pure versions (src lines 130
and 201). -/
theorem calculate_preserves_state (c : Calculator) (A : Astro) (target : Target) :
    (c.CalculateSt A target).2 = c ∧
    (c.CalculateSt A target).1 = c.Calculate A target ∧
    (c.CalculateAllSt A).2 = c ∧
    (c.CalculateAllSt A).1 = c.CalculateAll A := by
  have h1 := calculateSt_eq c A target
  have h2 := calcAllStGo_eq A targetList c
  exact ⟨by rw [h1], by rw [h1], by rw [Calculator.CalculateAllSt, h2],
    by rw [Calculator.CalculateAllSt, h2]; rfl⟩

/-- C9: when `Init` runs with a calculation method matching none of the
enumerated cases and no caller overrides, the switch (which has no
default branch) leaves the Go zero values, so the resolved dawn and
night angles are 0 and no post-sunset duration is set (src lines 51-93). -/
theorem init_unknown_method (c : Calculator)
    (hm : c.CalculationMethod ∉ enumeratedMethods)
    (hf : c.FajrAngle = 0) (hi : c.IshaAngle = 0) (hd : c.MaghribDuration = 0) :
    c.Init.fajrAngle = 0 ∧ c.Init.ishaAngle = 0 ∧ c.Init.MaghribDuration = 0 := by
  have hsw : methodSwitch c.CalculationMethod = (0, 0, 0) := by
    simp only [enumeratedMethods, List.mem_cons, List.not_mem_nil, or_false, not_or] at hm
    obtain ⟨h1, h2, h3, h4, h5, h6, h7, h8, h9, h10, h11, h12, h13, h14, h15, h16,
      h17, h18, h19⟩ := hm
    unfold methodSwitch
    simp [h1, h2, h3, h4, h5, h6, h7, h8, h9, h10, h11, h12, h13, h14, h15, h16,
      h17, h18, h19]
  have := init_field_by_field c
  refine ⟨?_, ?_, ?_⟩
  · rw [this.1, hf, hsw]
    simp
  · rw [this.2.1, hi, hsw]
    simp
  · rw [this.2.2.1, hd, hsw]
    simp

theorem init_unknown_method_witness :
    cUnknown.CalculationMethod ∉ enumeratedMethods ∧
      cUnknown.Init.fajrAngle = 0 ∧ cUnknown.Init.ishaAngle = 0 ∧
        cUnknown.Init.MaghribDuration = 0 :=
  ⟨by decide, init_unknown_method cUnknown (by decide) rfl rfl rfl⟩

/-- C10: on the fixed-duration Isha path the per-target corrections
configured for Isha itself are never read: replacing them changes
nothing, and the result is the fully corrected Maghrib time plus the
duration (src lines 131-139 versus 167-176). -/
theorem isha_path_skips_isha_corrections (c : Calculator) (A : Astro)
    (h : c.MaghribDuration ≠ 0) (ac : Option ℚ) (tc : Option Duration) :
    Calculator.Calculate
        { c with
            AngleCorrection := Function.update c.AngleCorrection Isha ac
            TimeCorrection := Function.update c.TimeCorrection Isha tc } A Isha
      = c.Calculate A Isha ∧
    ((c.Calculate A Maghrib).2 = false →
        c.Calculate A Isha =
          (timeAdd (c.Calculate A Maghrib).1 c.MaghribDuration, false)) := by
  constructor
  · have hcorr : ∀ x : ℚ,
        corrHours
          { c with
              AngleCorrection := Function.update c.AngleCorrection Isha ac
              TimeCorrection := Function.update c.TimeCorrection Isha tc }
          Maghrib x = corrHours c Maghrib x := by
      intro x
      unfold corrHours
      dsimp only
      rw [Function.update_noteq (by decide), Function.update_noteq (by decide)]
    have h2 :
        ({ c with
            AngleCorrection := Function.update c.AngleCorrection Isha ac
            TimeCorrection := Function.update c.TimeCorrection Isha tc } :
          Calculator).MaghribDuration ≠ 0 := h
    rw [isha_shortcut _ A h2, isha_shortcut c A h]
    unfold calculateBase
    rw [runLoop_congr c _ A Maghrib hcorr]
    rfl
  · rw [calculate_maghrib_eq_base, isha_shortcut c A h]
    intro hav
    rw [hav]
    simp

theorem isha_path_skips_isha_corrections_witness :
    cMaghrib.MaghribDuration ≠ 0 ∧
      Calculator.Calculate
          { cMaghrib with
              AngleCorrection := Function.update cMaghrib.AngleCorrection Isha (some 1)
              TimeCorrection :=
                Function.update cMaghrib.TimeCorrection Isha (some 3600000000000) }
          idAstro Isha
        = cMaghrib.Calculate idAstro Isha :=
  ⟨by decide,
    (isha_path_skips_isha_corrections cMaghrib idAstro (by decide) (some 1)
        (some 3600000000000)).1⟩

end Prayer
